import Mathlib

/-!
Verification development for the a2a conversation model repository.

The repository is TypeScript; this file gives a shallow embedding of its
core algorithmic components and proves the specified properties about them:

* `src/topics/topic-detector.ts`   — keyword topic detection (`TopicDetector.detectTopics`)
* `src/topics/topic-suggester.ts`  — lull detection (`TopicSuggester.detectLull`,
  `TopicSuggester.calculateRecentMessageSimilarity`)
* `src/orchestrator/cipher-orchestrator.ts` — context-window management,
  summarization and plugin dispatch (`CipherOrchestrator`)
* `src/metrics/engagement-tracker.ts` — engagement metrics (`EngagementTracker`)
* `src/conversation/flow-manager.ts`  — emotional flow (`FlowManager`)
* the `ConversationOrchestrator` turn engine (run loop, turn alternation,
  completion rule, memory injection).

Modelling conventions:
* JavaScript numbers are modelled as exact rationals (`ℚ`); string lengths and
  counters as `ℕ`.
* JavaScript strings are Lean `String`s; `message.toLowerCase()` is
  `String.toLower`, `split(/\s+/)` is `splitWsStr` below (faithful to the JS
  regex-split semantics including empty boundary pieces), `\b...\b` regex
  word-boundary matching is `wbCount` below, `includes` is `jsIncludes`,
  `trim` is `jsTrim`, `Array.prototype.join` is `jsJoin`,
  `Array.prototype.slice(-n)` is `jsSliceNeg`.
* A JS `Set` is used by the source only for its cardinality; we use
  `List.dedup.length`, which computes the same number of distinct elements.
* Effects (logging, awaiting, database writes) are dropped; fallible calls are
  modelled with `Except`; external collaborators (LLM backend, persistence
  store, topic-manager state read by the engine) are oracle inputs.
-/

namespace A2A


-- ============================================================
-- JS string primitives
-- ============================================================

/-- ASCII whitespace, the characters matched by the JS regex class `\s`
on the inputs of interest. -/
def isWsChar (c : Char) : Bool :=
  c == ' ' || c == '\t' || c == '\n' || c == '\r' || c == '\x0b' || c == '\x0c'

/-- Characters of the JS regex class `\w` (`[A-Za-z0-9_]`). -/
def isWordChar (c : Char) : Bool :=
  c.isAlphanum || c == '_'

mutual

/-- Accumulating scanner for `split(/\s+/)`: building the current piece. -/
def splitWsGo (acc : List Char) : List Char → List (List Char)
  | [] => [ acc.reverse ]
  | c :: rest =>
    if isWsChar c then acc.reverse :: splitWsSkip rest else splitWsGo (c :: acc) rest

/-- Accumulating scanner for `split(/\s+/)`: inside a whitespace run. -/
def splitWsSkip : List Char → List (List Char)
  | [] => [ [] ]
  | c :: rest =>
    if isWsChar c then splitWsSkip rest else splitWsGo [ c ] rest

end


/-- JS `String.prototype.split(/\s+/)` on a character list: pieces between
maximal whitespace runs, with an empty piece at an end that touches
whitespace, and `[""]` for the empty string. -/
def splitWs (l : List Char) : List (List Char) :=
  splitWsGo [] l

/-- JS `s.split(/\s+/)` at the `String` level. -/
def splitWsStr (s : String) : List String :=
  (splitWs s.data).map (fun w => String.mk w)

/-- Whether the character on each side of a position makes a `\b` regex word
boundary (`none` = edge of the string). -/
def optIsWord : Option Char → Bool
  | none => false
  | some c => isWordChar c

/-- A `\b` word boundary holds between two (optional) characters iff exactly
one side is a word character. -/
def isBoundary (l r : Option Char) : Bool :=
  optIsWord l != optIsWord r

/-- Does the pattern `\b<kw>\b` match at the current position, where `prev` is
the character just before the position? -/
def wbMatchAt (kw : List Char) (prev : Option Char) (text : List Char) : Bool :=
  kw.isPrefixOf text &&
    isBoundary prev text.head? &&
    isBoundary (match kw.getLast? with | some c => some c | none => prev)
      ((text.drop kw.length).head?)

/-- Count of global (`g`-flag) matches of the regex `\b<kw>\b` in `text`,
scanning left to right and resuming after each match, as
`String.prototype.match` does (an empty match advances by one character).
The `fuel` argument only makes the recursion structural; the scan consumes at
least one character per step, so `fuel = text.length` is always sufficient. -/
def wbCountGo (kw : List Char) : Nat → Option Char → List Char → Nat
  | 0, _, _ => 0
  | _, _, [] => 0
  | fuel + 1, prev, c :: rest =>
    if wbMatchAt kw prev (c :: rest) then
      match kw with
      | [] => 1 + wbCountGo kw fuel (some c) rest
      | kh :: kt => 1 + wbCountGo kw fuel ((kh :: kt).getLast?) (rest.drop kt.length)
    else
      wbCountGo kw fuel (some c) rest

/-- Number of matches of `\b<kw>\b` in `text` (the whole-word occurrence count
computed by the source with `message.match(regex)`). -/
def wbCount (kw text : List Char) : Nat :=
  wbCountGo kw text.length none text

/-- JS `String.prototype.toLowerCase` (ASCII-faithful). -/
def jsToLower (s : String) : String :=
  String.mk (s.data.map Char.toLower)

/-- JS `String.prototype.substring(0, n)`. -/
def jsSubstrTo (n : Nat) (s : String) : String :=
  String.mk (s.data.take n)

/-- JS `hay.includes(needle)`: substring occurrence. -/
def jsIncludes (hay needle : String) : Bool :=
  (List.range (hay.data.length + 1)).any (fun i => needle.data.isPrefixOf (hay.data.drop i))

/-- JS `String.prototype.trim`: strip leading and trailing whitespace. -/
def jsTrim (s : String) : String :=
  String.mk (((s.data.dropWhile isWsChar).reverse.dropWhile isWsChar).reverse)

/-- JS `Array.prototype.join(sep)`. -/
def jsJoin (sep : String) : List String → String
  | [] => ""
  | [ x ] => x
  | x :: y :: rest => x ++ sep ++ jsJoin sep (y :: rest)

/-- JS `Array.prototype.slice(-n)` for a non-negative count `n`:
the last `n` elements, or the whole array when `n = 0` (since `-0` is `0`). -/
def jsSliceNeg (n : Nat) (l : List α) : List α :=
  if n = 0 then l else l.drop (l.length - n)

-- ============================================================
-- Topic detector (src/topics/topic-detector.ts)
-- ============================================================

/-- A topic of the static catalog (src/topics/types.ts `Topic`). The optional
`relevanceScore` field is absent (`none`) on catalog entries and set on the
topics returned inside a detection. -/
structure Topic where
  id : String
  name : String
  keywords : List String
  description : String
  relevanceScore : Option ℚ := none
deriving DecidableEq, Repr

/-- The first entry of the static catalog, named for use in the concrete
scenarios. -/
def technologyTopic : Topic :=
  { id := "technology", name := "Technology",
    keywords := [ "computer", "software", "code", "programming", "tech", "app",
      "website", "digital", "internet", "ai", "algorithm" ],
    description := "Discussion about technology, software, computers, and digital tools" }

/-- The static topic catalog `TOPIC_DEFINITIONS` of topic-detector.ts. -/
def topicDefinitions : List Topic := [
  technologyTopic,
  { id := "food", name := "Food & Dining",
    keywords := [ "food", "restaurant", "cooking", "recipe", "dinner", "lunch",
      "breakfast", "cuisine", "taste", "meal" ],
    description := "Discussion about food, restaurants, cooking, and dining experiences" },
  { id := "travel", name := "Travel",
    keywords := [ "travel", "trip", "vacation", "journey", "destination", "visit",
      "explore", "adventure", "flight", "hotel" ],
    description := "Discussion about travel, trips, and visiting places" },
  { id := "work", name := "Work & Career",
    keywords := [ "work", "job", "career", "office", "colleague", "project",
      "meeting", "boss", "client", "professional" ],
    description := "Discussion about work, career, and professional life" },
  { id := "hobbies", name := "Hobbies & Interests",
    keywords := [ "hobby", "interest", "pastime", "activity", "sport", "music",
      "art", "reading", "gaming", "collection" ],
    description := "Discussion about hobbies, interests, and leisure activities" },
  { id := "philosophy", name := "Philosophy & Ideas",
    keywords := [ "think", "idea", "meaning", "purpose", "belief", "philosophy",
      "theory", "concept", "perspective", "opinion" ],
    description := "Discussion about philosophy, ideas, and abstract concepts" },
  { id := "personal", name := "Personal Life",
    keywords := [ "family", "friend", "home", "personal", "life", "relationship",
      "feeling", "emotion", "experience" ],
    description := "Discussion about personal life, relationships, and experiences" },
  { id := "entertainment", name := "Entertainment",
    keywords := [ "movie", "show", "book", "music", "concert", "entertainment",
      "media", "film", "series", "performance" ],
    description := "Discussion about movies, shows, books, music, and entertainment" },
  { id := "general", name := "General Conversation",
    keywords := [ "hello", "hi", "how", "what", "where", "when", "why",
      "conversation", "chat", "talk" ],
    description := "General conversation and small talk" } ]

/-- Coarse sentiment of a message. -/
inductive Sentiment where
  | positive
  | neutral
  | negative
deriving DecidableEq, Repr

/-- The fixed positive-word list of `detectTopics`. -/
def positiveWords : List String :=
  [ "good", "great", "wonderful", "amazing", "love", "enjoy", "happy", "excited" ]

/-- The fixed negative-word list of `detectTopics`. -/
def negativeWords : List String :=
  [ "bad", "terrible", "awful", "hate", "sad", "angry", "disappointed", "worried" ]

/-- Message statistics attached to a detection. -/
structure MessageAnalysis where
  wordCount : Nat
  uniqueWords : Nat
  sentiment : Sentiment
deriving DecidableEq, Repr

/-- Result of `TopicDetector.detectTopics`. -/
structure TopicDetection where
  detectedTopics : List Topic
  dominantTopic : Option Topic
  topicConfidence : ℚ
  messageAnalysis : MessageAnalysis
deriving DecidableEq, Repr

/-- Internal record of the detection loop: a topic together with its
`matchCount` and `relevanceScore` (stripped again before returning). -/
structure ScoredTopic where
  topic : Topic
  matchCount : Nat
  relevanceScore : ℚ
deriving DecidableEq, Repr

/-- Number of whole-word matches of one keyword in the message: the source
builds the regex from the lowercased keyword and matches it globally against
the lowercased message. -/
def keywordMatches (message kw : String) : Nat :=
  wbCount (jsToLower kw).data (jsToLower message).data

/-- Total whole-word keyword match count of a topic in a message
(the `matchCount` accumulation loop of `detectTopics`). -/
def topicMatchCount (t : Topic) (message : String) : Nat :=
  (t.keywords.map (fun kw => keywordMatches message kw)).sum

/-- Relevance formula of `detectTopics`:
`Math.min(1, matchCount / (wordCount * 0.1))`. -/
def relevanceFormula (matchCount wordCount : Nat) : ℚ :=
  min 1 ((matchCount : ℚ) / ((wordCount : ℚ) * (1 / 10)))

/-- Word list of a message as computed by `detectTopics`:
`message.toLowerCase().split(/\s+/)`. -/
def messageWords (message : String) : List String :=
  splitWsStr (jsToLower message)

/-- The descending-relevance comparison used by the sort inside
`detectTopics` (JS comparator `(a, b) => b.relevanceScore - a.relevanceScore`,
a stable descending sort, modelled with the stable `List.insertionSort`). -/
def scoredGE (a b : ScoredTopic) : Prop :=
  b.relevanceScore ≤ a.relevanceScore

instance : DecidableRel scoredGE := fun a b =>
  inferInstanceAs (Decidable (b.relevanceScore ≤ a.relevanceScore))

instance : IsTotal ScoredTopic scoredGE :=
  ⟨fun a b => le_total b.relevanceScore a.relevanceScore⟩

instance : IsTrans ScoredTopic scoredGE :=
  ⟨fun _ _ _ hab hbc => le_trans hbc hab⟩

/-- The scored-and-sorted detection list built by the loop of `detectTopics`:
topics with at least one keyword match, scored with the relevance formula,
sorted by descending relevance. -/
def scoredDetections (topics : List Topic) (message : String) : List ScoredTopic :=
  (topics.filterMap (fun t =>
    let matchCount := topicMatchCount t message
    if 0 < matchCount then
      some { topic := t, matchCount := matchCount,
             relevanceScore := relevanceFormula matchCount (messageWords message).length }
    else none)).insertionSort scoredGE

/-- Dropping the internal `matchCount` from a scored topic, keeping the score
in the optional `relevanceScore` field (the "cleaned" topics of the source). -/
def cleanTopic (s : ScoredTopic) : Topic :=
  { s.topic with relevanceScore := some s.relevanceScore }

/-- Shallow embedding of `TopicDetector.detectTopics` (topic-detector.ts,
lines 181-282).  The `turnNumber` argument of the source is used only for
logging and is omitted. -/
def detectTopics (topics : List Topic) (message : String) : TopicDetection :=
  let words := messageWords message
  let wordCount := words.length
  let uniqueWords := words.dedup.length
  let sorted := scoredDetections topics message
  let topicConfidence : ℚ := match sorted.head? with
    | some d => d.relevanceScore
    | none => 0
  let cleaned := sorted.map cleanTopic
  let positiveCount := (words.filter (fun w => positiveWords.contains w)).length
  let negativeCount := (words.filter (fun w => negativeWords.contains w)).length
  let sentiment : Sentiment :=
    if negativeCount < positiveCount then .positive
    else if positiveCount < negativeCount then .negative
    else .neutral
  { detectedTopics := cleaned,
    dominantTopic := cleaned.head?,
    topicConfidence := topicConfidence,
    messageAnalysis :=
      { wordCount := wordCount, uniqueWords := uniqueWords, sentiment := sentiment } }

/-- A catalog topic as it appears inside a detection: the same topic record
with its `relevanceScore` field set to the relevance-formula value. -/
def detectedEntry (t0 : Topic) (message : String) : Topic :=
  let r := relevanceFormula (topicMatchCount t0 message) (messageWords message).length
  { t0 with relevanceScore := some r }

-- ============================================================
-- Engagement tracker (src/metrics/engagement-tracker.ts)
-- ============================================================

/-- Configuration of the engagement tracker, with the source defaults
windowSize 10, minMessageLength 20, maxMessageLength 200, thresholds 0.4/0.7. -/
structure EngagementTrackerConfig where
  windowSize : Nat
  minMessageLength : ℚ
  maxMessageLength : ℚ
  lowEngagementThreshold : ℚ
  highEngagementThreshold : ℚ

/-- One tracked message of the engagement window. -/
structure TrackedMessage where
  content : String
  topics : Option (List String)

/-- The four engagement sub-scores and the weighted overall score. -/
structure EngagementMetrics where
  messageDiversity : ℚ
  responseQuality : ℚ
  topicFlowSmoothness : ℚ
  conversationDepth : ℚ
  overallEngagement : ℚ

/-- `EngagementTracker.trackMessage`: push into the FIFO window, evicting the
oldest entry when the window exceeds its capacity. -/
def trackMessage (cfg : EngagementTrackerConfig) (history : List TrackedMessage)
    (content : String) (topics : Option (List String)) : List TrackedMessage :=
  let h := history ++ [ { content := content, topics := topics } ]
  if cfg.windowSize < h.length then h.drop 1 else h

/-- `EngagementTracker.calculateMessageDiversity`: average of topic diversity
(unique topics over topic mentions, default 0.5) and vocabulary diversity
(unique words over total words, default 0.5). -/
def calculateMessageDiversity (cfg : EngagementTrackerConfig)
    (history : List TrackedMessage) : ℚ :=
  let recentMessages := jsSliceNeg cfg.windowSize history
  let topics := (recentMessages.filterMap (fun m => m.topics)).flatten
  let topicDiversity : ℚ :=
    if 0 < topics.length then (topics.dedup.length : ℚ) / max 1 (topics.length : ℚ)
    else 1 / 2
  let allWords := (recentMessages.map (fun m => splitWsStr (jsToLower m.content))).flatten
  let vocabularyDiversity : ℚ :=
    if 0 < allWords.length then (allWords.dedup.length : ℚ) / (allWords.length : ℚ)
    else 1 / 2
  (topicDiversity + vocabularyDiversity) / 2

/-- `EngagementTracker.calculateResponseQuality`: per-message piecewise length
score (1 inside the configured range, linear ramp below, decaying but floored
at 0.3 above), averaged over the window. -/
def calculateResponseQuality (cfg : EngagementTrackerConfig)
    (history : List TrackedMessage) : ℚ :=
  let recentMessages := jsSliceNeg cfg.windowSize history
  if recentMessages.length = 0 then 1 / 2
  else
    let qualityScores := recentMessages.map (fun m =>
      let len : ℚ := (m.content.length : ℚ)
      if cfg.minMessageLength ≤ len ∧ len ≤ cfg.maxMessageLength then 1
      else if len < cfg.minMessageLength then len / cfg.minMessageLength
      else max (3 / 10) (1 - (len - cfg.maxMessageLength) / 200))
    qualityScores.sum / (qualityScores.length : ℚ)

/-- `EngagementTracker.calculateTopicFlowSmoothness`: ratio of smooth
transitions (consecutive topic sets that intersect) among all transitions,
with a 0.2 penalty when switches exceed half of the transitions;
0.5 when fewer than 2 topic-tagged messages exist. -/
def calculateTopicFlowSmoothness (cfg : EngagementTrackerConfig)
    (history : List TrackedMessage) : ℚ :=
  let recentMessages := jsSliceNeg cfg.windowSize history
  let topics := recentMessages.filterMap (fun m => m.topics)
  if topics.length < 2 then 1 / 2
  else
    let pairs := topics.zip topics.tail
    let counted := pairs.filter (fun p => decide (0 < p.1.length ∧ 0 < p.2.length))
    let smoothTransitions :=
      (counted.filter (fun p => p.1.any (fun t => p.2.contains t))).length
    let switches :=
      (counted.filter (fun p => ! p.1.any (fun t => p.2.contains t))).length
    let totalTransitions := switches + smoothTransitions
    if totalTransitions = 0 then 1 / 2
    else
      let smoothnessRatio := (smoothTransitions : ℚ) / (totalTransitions : ℚ)
      let switchPenalty : ℚ :=
        if (totalTransitions : ℚ) * (1 / 2) < (switches : ℚ) then 2 / 10 else 0
      max 0 (smoothnessRatio - switchPenalty)

/-- The "detail" cue words of `calculateConversationDepth`. -/
def detailWords : List String :=
  [ "because", "since", "when", "why", "how", "example", "instance" ]

/-- The reference cue words of `calculateConversationDepth`. -/
def referenceWords : List String :=
  [ "that", "this", "it", "they", "we", "you", "i" ]

/-- Per-message depth heuristic of `calculateConversationDepth`, capped at 1. -/
def messageDepthScore (content : String) : ℚ :=
  let lower := jsToLower content
  let questionCount := (lower.data.filter (fun c => c == '?')).length
  let d1 := min (3 / 10) ((questionCount : ℚ) * (1 / 10))
  let d2 : ℚ := if detailWords.any (fun w => jsIncludes lower w) then 2 / 10 else 0
  let referenceCount := (referenceWords.filter (fun w => jsIncludes lower w)).length
  let d3 := min (2 / 10) ((referenceCount : ℚ) * (5 / 100))
  let d4 : ℚ := if 50 < content.length then 3 / 10 else 0
  min 1 (d1 + d2 + d3 + d4)

/-- `EngagementTracker.calculateConversationDepth`: the average per-message
depth heuristic over the window. -/
def calculateConversationDepth (cfg : EngagementTrackerConfig)
    (history : List TrackedMessage) : ℚ :=
  let recentMessages := jsSliceNeg cfg.windowSize history
  if recentMessages.length = 0 then 1 / 2
  else ((recentMessages.map (fun m => messageDepthScore m.content)).sum
          / (recentMessages.length : ℚ))

/-- `EngagementTracker.calculateMetrics` (engagement-tracker.ts, lines
43-80): the neutral-favorable default below 2 tracked messages, otherwise the
four sub-scores and their weighted average. -/
def calculateMetrics (cfg : EngagementTrackerConfig)
    (history : List TrackedMessage) : EngagementMetrics :=
  if history.length < 2 then
    { messageDiversity := 1, responseQuality := 1, topicFlowSmoothness := 1,
      conversationDepth := 1 / 2, overallEngagement := 1 }
  else
    let messageDiversity := calculateMessageDiversity cfg history
    let responseQuality := calculateResponseQuality cfg history
    let topicFlowSmoothness := calculateTopicFlowSmoothness cfg history
    let conversationDepth := calculateConversationDepth cfg history
    { messageDiversity := messageDiversity,
      responseQuality := responseQuality,
      topicFlowSmoothness := topicFlowSmoothness,
      conversationDepth := conversationDepth,
      overallEngagement :=
        messageDiversity * (25 / 100) + responseQuality * (3 / 10) +
          topicFlowSmoothness * (25 / 100) + conversationDepth * (2 / 10) }

-- ============================================================
-- Flow manager, emotional flow (src/conversation/flow-manager.ts)
-- ============================================================

/-- Direction of the emotional flow. -/
inductive EmotionalDirection where
  | increasing
  | decreasing
  | stable
deriving DecidableEq, Repr

/-- The emotional-flow component of the flow-manager state.  The other
components of `FlowState` (beat, mood, rhythm, recent beats) are written by
`analyzeMessage` lines 48-70 and never touch the emotional flow, so the
emotional component of one `analyzeMessage` call is exactly one
`updateEmotionalFlow` call. -/
structure EmotionalFlowState where
  intensity : ℚ
  direction : EmotionalDirection
deriving DecidableEq, Repr

/-- The intense-emotion keyword list of `updateEmotionalFlow`. -/
def intenseWords : List String :=
  [ "love", "hate", "amazing", "terrible", "excited", "angry", "passionate",
    "furious", "ecstatic", "devastated" ]

/-- The emotional flow installed by the `FlowManager` constructor
(flow-manager.ts lines 38-41) and by `reset` (lines 356-359). -/
def initialEmotionalFlow : EmotionalFlowState :=
  { intensity := 1 / 2, direction := .stable }

/-- Number of intense keywords occurring (as substrings) in the lowercased
content, as counted by `updateEmotionalFlow`. -/
def intenseCount (content : String) : Nat :=
  (intenseWords.filter (fun w => jsIncludes (jsToLower content) w)).length

/-- Shallow embedding of `FlowManager.updateEmotionalFlow` (flow-manager.ts,
lines 182-213). -/
def updateEmotionalFlow (content : String) (st : EmotionalFlowState) :
    EmotionalFlowState :=
  let newIntensity := min 1 (1 / 2 + (intenseCount content : ℚ) * (1 / 10))
  let oldIntensity := st.intensity
  let direction : EmotionalDirection :=
    if oldIntensity + 1 / 10 < newIntensity then .increasing
    else if newIntensity < oldIntensity - 1 / 10 then .decreasing
    else .stable
  { intensity := newIntensity, direction := direction }

-- ============================================================
-- Topic suggester, lull detection (src/topics/topic-suggester.ts)
-- ============================================================

/-- One entry of the rolling conversation history of `TopicGuidanceState`. -/
structure HistoryEntry where
  turnNumber : Nat
  topic : Option Topic
  message : String

/-- The topic-guidance state (src/topics/types.ts `TopicGuidanceState`).
The accumulated `topicSwitches` and `suggestions` lists are never read by the
functions embedded here and are omitted. -/
structure TopicGuidanceState where
  currentTopics : List Topic
  conversationHistory : List HistoryEntry
  lullDetected : Bool
  lastActiveTurn : Option Nat := none

/-- The distinct lowercased words of a message, as collected by
`new Set(message.toLowerCase().split(/\s+/))`: only the cardinalities of this
set and of its intersections/unions are ever used. -/
def wordSet (message : String) : List String :=
  (splitWsStr (jsToLower message)).dedup

/-- Jaccard word-set overlap of the current message with one history message
(the loop body of `calculateRecentMessageSimilarity`): intersection size over
union size, `0` when the union is empty. -/
def jaccardSimilarity (currentWords : List String) (message : String) : ℚ :=
  let entryWords := wordSet message
  let intersection := (currentWords.filter (fun w => entryWords.contains w)).length
  let union := ((currentWords ++ entryWords).dedup).length
  if 0 < union then (intersection : ℚ) / (union : ℚ) else 0

/-- Shallow embedding of `TopicSuggester.calculateRecentMessageSimilarity`
(topic-suggester.ts, lines 28-52): the mean Jaccard overlap between the
current message and each of the last `lullThreshold` history messages,
`0.5` when fewer than 2 of them exist. -/
def calculateRecentMessageSimilarity (lullThreshold : Nat)
    (state : TopicGuidanceState) (currentMessage : String) : ℚ :=
  let recentMessages := jsSliceNeg lullThreshold state.conversationHistory
  if recentMessages.length < 2 then 1 / 2
  else
    let currentWords := wordSet currentMessage
    let totalSimilarity :=
      (recentMessages.map (fun e => jaccardSimilarity currentWords e.message)).sum
    let comparisons := recentMessages.length
    if 0 < comparisons then totalSimilarity / (comparisons : ℚ) else 1 / 2

/-- Shallow embedding of `TopicSuggester.detectLull` (topic-suggester.ts,
lines 57-89).  The `currentTurn` argument of the source is used only for
logging and is omitted. -/
def detectLull (lullThreshold minMessageLength : Nat)
    (state : TopicGuidanceState) (currentMessage : String) : Bool :=
  let recentMessages := jsSliceNeg lullThreshold state.conversationHistory
  if recentMessages.length < lullThreshold then false
  else
    let allShortMessages :=
      recentMessages.all (fun e => decide (e.message.length < minMessageLength))
    let currentMessageShort := decide (currentMessage.length < minMessageLength)
    let semanticSimilarity := calculateRecentMessageSimilarity lullThreshold state currentMessage
    let lowSemanticDiversity := decide (7 / 10 < semanticSimilarity)
    (allShortMessages && currentMessageShort) || lowSemanticDiversity

-- ============================================================
-- Cipher orchestrator (src/orchestrator/cipher-orchestrator.ts)
-- ============================================================

/-- One context message handled by `manageContextWindow`. -/
structure CtxMessage where
  content : String
  agentId : String
  role : String
deriving DecidableEq, Repr

/-- The stop-word set of `summarizeContext`. -/
def stopWords : List String :=
  [ "the", "a", "an", "and", "or", "but", "in", "on", "at", "to", "for", "of",
    "with", "by", "is", "are", "was", "were", "be", "been", "have", "has",
    "had", "do", "does", "did", "will", "would", "could", "should", "this",
    "that", "these", "those", "i", "you", "he", "she", "it", "we", "they" ]

/-- JS `word.replace(/[^\w]/g, "")`: keep only word characters. -/
def cleanWord (w : String) : String :=
  String.mk (w.data.filter isWordChar)

/-- Increment the count of a word in the frequency map, modelling
`Map.set(word, (get(word) || 0) + 1)`: an existing key keeps its position,
a new key is appended (JS `Map` preserves insertion order). -/
def bumpFreq (freq : List (String × Nat)) (w : String) : List (String × Nat) :=
  if freq.any (fun p => p.1 == w) then
    freq.map (fun p => if p.1 == w then (p.1, p.2 + 1) else p)
  else freq ++ [ (w, 1) ]

/-- The word-frequency accumulation loop of `summarizeContext`: clean each
word, keep it when longer than 3 characters and not a stop word. -/
def wordFreqOf (words : List String) : List (String × Nat) :=
  words.foldl (fun freq word =>
    let cw := cleanWord word
    if 3 < cw.length ∧ ¬ stopWords.contains cw = true then bumpFreq freq cw else freq) []

/-- The frequency ordering used to pick the top words (descending count;
JS comparator `(a, b) => b[1] - a[1]`, stable). -/
def freqGE (a b : String × Nat) : Prop :=
  b.2 ≤ a.2

instance : DecidableRel freqGE := fun a b => inferInstanceAs (Decidable (b.2 ≤ a.2))

/-- A 50-character preview of a message with a trailing ellipsis when
truncated (the `firstMessages`/`lastMessages` maps of `summarizeContext`). -/
def messagePreview (m : CtxMessage) : String :=
  jsSubstrTo 50 m.content ++ (if 50 < m.content.length then "..." else "")

/-- Shallow embedding of `CipherOrchestrator.summarizeContext`
(cipher-orchestrator.ts, lines 143-254).  The summary string is built from the
top-10 non-stopword term frequencies plus previews of the first and last two
messages; `none` models the `undefined` return for an empty input.  Storing
the summary on the instance, plugin notification and event logging are
effects outside this function's value and are dropped. -/
def summarizeContext (messages : List CtxMessage) : Option String :=
  if messages.length = 0 then none
  else
    let allContent := jsJoin " " (messages.map (fun m => m.content))
    let words := splitWsStr (jsToLower allContent)
    let topWords :=
      (((wordFreqOf words).insertionSort freqGE).take 10).map (fun p => p.1)
    let firstMessages := (messages.take 2).map messagePreview
    let lastMessages := (jsSliceNeg 2 messages).map messagePreview
    let summaryParts : List String :=
      (if 0 < topWords.length then
        [ "Topics discussed: " ++ jsJoin ", " topWords ] else []) ++
      (if 0 < firstMessages.length then
        [ "Started with: " ++ jsJoin " | " firstMessages ] else []) ++
      (if 0 < lastMessages.length then
        [ "Ended with: " ++ jsJoin " | " lastMessages ] else [])
    some (jsJoin ". " summaryParts)

/-- The synthesized summary entry prepended by `manageContextWindow`. -/
def summaryEntry (summary : String) : CtxMessage :=
  { content := "[Earlier conversation context: " ++ summary ++ "]",
    agentId := "cipher", role := "user" }

/-- Shallow embedding of `CipherOrchestrator.manageContextWindow`
(cipher-orchestrator.ts, lines 102-138).  `maxContextMessages = 0` is the
falsy-cap case in which the input is returned unchanged; the `if (summary)`
truthiness test of the source is false for `undefined` and for the empty
string. -/
def manageContextWindow (maxContextMessages : Nat) (enableContextSummarization : Bool)
    (messages : List CtxMessage) : List CtxMessage :=
  if maxContextMessages = 0 ∨ messages.length ≤ maxContextMessages then messages
  else
    let recentMessages := jsSliceNeg maxContextMessages messages
    if enableContextSummarization then
      let olderMessages := messages.take (messages.length - maxContextMessages)
      if 0 < olderMessages.length then
        match summarizeContext olderMessages with
        | some summary =>
          if summary.length ≠ 0 then summaryEntry summary :: recentMessages
          else recentMessages
        | none => recentMessages
      else recentMessages
    else recentMessages

-- ============================================================
-- Plugin dispatch (CipherOrchestrator.notifyPlugins, lines 470-489)
-- ============================================================

/-- A registered plugin: its name and the (optional) lifecycle hook for the
event kind being dispatched.  A hook is a function of the event payload whose
failure is an `Except.error`. -/
structure Plugin where
  name : String
  hook : Option (String → Except String Unit)

/-- `CipherOrchestrator.registerPlugin`: a JS `Map.set` keyed by name — a
later registration with an existing name overwrites in place, a new name is
appended (iteration follows insertion order). -/
def registerPlugin (registry : List Plugin) (p : Plugin) : List Plugin :=
  if registry.any (fun q => q.name == p.name) then
    registry.map (fun q => if q.name == p.name then p else q)
  else registry ++ [ p ]

/-- Shallow embedding of `CipherOrchestrator.notifyPlugins`
(cipher-orchestrator.ts, lines 470-489): iterate the registered plugins in
order; a plugin without the hook is skipped; a hook that throws is caught and
its error only logged (collected in the second component).  The result is the
invocation trace (plugin name, event payload received) together with the
logged errors; an uncaught exception would surface as `Except.error`, which
the per-hook catch makes impossible. -/
def notifyPlugins : List Plugin → String → Except String (List (String × String) × List String)
  | [], _ => .ok ([], [])
  | p :: rest, event =>
    match p.hook with
    | none => notifyPlugins rest event
    | some handler =>
      let logged : List String :=
        match handler event with
        | .ok _ => []
        | .error e => [ e ]
      match notifyPlugins rest event with
      | .ok (trace, logs) => .ok ((p.name, event) :: trace, logged ++ logs)
      | .error e => .error e

-- ============================================================
-- Conversation orchestrator (turn engine)
-- ============================================================

/-- An agent configuration as far as the turn engine reads it. -/
structure AgentCfg where
  id : String
  name : String
deriving DecidableEq, Repr

/-- One message of the conversation state. -/
structure OrchMessage where
  role : String
  content : String
  agentId : String
deriving DecidableEq, Repr

/-- The `ConversationState` owned by the orchestrator. -/
structure ConvState where
  messages : List OrchMessage
  currentTurn : Nat
  currentAgentId : String
  isComplete : Bool
deriving DecidableEq, Repr

/-- The orchestrator instance fields beyond `ConversationState` that the
embedded control flow reads or writes: the memory-injection flag and the
infinite-mode engagement monitoring counters. -/
structure OrchExtra where
  pastMemoriesInjected : Bool
  engagementScore : ℚ
  consecutiveLowEngagementTurns : Nat

/-- The orchestrator configuration slice read by the embedded control flow. -/
structure OrchConfig where
  agentA : AgentCfg
  agentB : AgentCfg
  maxTurns : Nat
  usePastMemories : Bool
  infiniteMode : Bool
deriving DecidableEq, Repr

/-- The per-turn inputs provided by the external collaborators:
`retrieval` is the list of past-message contents returned by the persistence
store (via the Cipher hub's `getWeightedMemories` when a hub is attached,
else directly from `getRelevantPastMessages` — both paths deliver content
strings which the engine truncates identically); `genResult` is the outcome
of the LLM `generate` call; `recentTopicIds` models
`topicManager.getState().conversationHistory.slice(-5).map(e => e.topic?.id).filter(Boolean)`
read by the infinite-mode health check (`none` = no topic manager attached). -/
structure TurnOracle where
  retrieval : List String
  genResult : Except String String
  recentTopicIds : Option (List String)

/-- The initial conversation state installed by the constructor: no messages,
turn 0, agent A speaks first, not complete. -/
def initState (cfg : OrchConfig) : ConvState :=
  { messages := [], currentTurn := 0, currentAgentId := cfg.agentA.id,
    isComplete := false }

/-- The initial instance fields: memories not injected, engagement score 1,
no consecutive low-engagement turns. -/
def initExtra : OrchExtra :=
  { pastMemoriesInjected := false, engagementScore := 1,
    consecutiveLowEngagementTurns := 0 }

/-- Truncation of one retrieved memory fragment:
`msg.content.trim().split(/\s+/).slice(0, 12).join(" ")` — the first 10-12
words only (both the hub path and the direct path apply this identically). -/
def truncateMemory (s : String) : String :=
  jsJoin " " ((splitWsStr (jsTrim s)).take 12)

/-- The memory-retrieval phase at the start of `executeTurn`: retrieval
happens only when memory reuse is on and nothing was injected yet, each
fragment is truncated to at most 12 words, and the injected flag is set
exactly when results exist and the turn index is still below 3.  Returns the
memories injected into the prompt and the new flag. -/
def memoryPhase (cfg : OrchConfig) (retrieval : List String)
    (st : ConvState) (ex : OrchExtra) : List String × Bool :=
  if cfg.usePastMemories && ! ex.pastMemoriesInjected then
    let retrievedMemories := retrieval.map truncateMemory
    if decide (retrievedMemories ≠ []) && decide (st.currentTurn < 3) then
      (retrievedMemories, true)
    else
      (retrievedMemories, ex.pastMemoriesInjected)
  else
    ([], ex.pastMemoriesInjected)

/-- Shallow embedding of `updateEngagementScore` (infinite-mode health
check): the fallback score 1 below 2 messages, otherwise the weighted average
of the length-variance score, the topic-diversity score (0.5 without a topic
manager) and the last-message length score, plus the consecutive
low-engagement counter update. -/
def updateEngagementScore (recentTopicIds : Option (List String))
    (st : ConvState) (ex : OrchExtra) : OrchExtra :=
  if st.messages.length < 2 then
    { ex with engagementScore := 1 }
  else
    let recentMessages := jsSliceNeg 5 st.messages
    let lengths : List ℚ := recentMessages.map (fun m => (m.content.length : ℚ))
    let avgLength := lengths.sum / (recentMessages.length : ℚ)
    let lengthVariance :=
      (lengths.map (fun x => (x - avgLength) * (x - avgLength))).sum
        / (recentMessages.length : ℚ)
    let lengthScore := min 1 (lengthVariance / 1000)
    let topicScore : ℚ :=
      match recentTopicIds with
      | none => 1 / 2
      | some ids => (ids.dedup.length : ℚ) / max 1 (ids.length : ℚ)
    let qualityScore : ℚ :=
      match st.messages.getLast? with
      | some lastMessage =>
        let len : ℚ := (lastMessage.content.length : ℚ)
        if 20 ≤ len ∧ len ≤ 200 then 1
        else if len < 20 then len / 20
        else max 0 (1 - (len - 200) / 200)
      | none => 1 / 2
    let score := lengthScore * (3 / 10) + topicScore * (4 / 10) + qualityScore * (3 / 10)
    { ex with
      engagementScore := score,
      consecutiveLowEngagementTurns :=
        if score < 4 / 10 then ex.consecutiveLowEngagementTurns + 1 else 0 }

/-- The agent whose turn it is (`getCurrentAgent`). -/
def getCurrentAgent (cfg : OrchConfig) (st : ConvState) : AgentCfg :=
  if st.currentAgentId = cfg.agentA.id then cfg.agentA else cfg.agentB

/-- Shallow embedding of `ConversationOrchestrator.executeTurn` for the state
components the claims are about.

Faithfulness notes against the source (the hub-integrated orchestrator of the
repository, `executeTurn` lines 769-1074):
* the memory phase runs before generation, so its flag update survives a
  generation failure (the thrown error leaves the other state fields
  untouched — the message push, turn increment, speaker flip and completion
  check all come after the `generate` call);
* a generation failure is re-thrown unchanged after logging, with no retry —
  the single `genResult` oracle value is consulted exactly once;
* topic analysis, flow analysis, prompt assembly, engagement tracking and
  best-effort persistence touch only external collaborators (their failures
  are swallowed by the source) and are not part of the returned state;
* the completion flag is set only when infinite mode is off and the
  incremented turn counter has reached `maxTurns`; in infinite mode the
  health check only recomputes the monitoring fields of `OrchExtra` and logs.

The result carries the state reached when the turn ended (also on a thrown
generation error) together with either the injected memories or the error. -/
def executeTurn (cfg : OrchConfig) (o : TurnOracle) (st : ConvState) (ex : OrchExtra) :
    (ConvState × OrchExtra) × Except String (List String) :=
  let phase := memoryPhase cfg o.retrieval st ex
  let retrievedMemories := phase.1
  let ex1 := { ex with pastMemoriesInjected := phase.2 }
  match o.genResult with
  | .error e => ((st, ex1), .error e)
  | .ok content =>
    let message : OrchMessage :=
      { role := "assistant", content := content,
        agentId := (getCurrentAgent cfg st).id }
    let st1 := { st with messages := st.messages ++ [ message ] }
    let st2 :=
      { st1 with
        currentTurn := st1.currentTurn + 1,
        currentAgentId :=
          if st1.currentAgentId = cfg.agentA.id then cfg.agentB.id else cfg.agentA.id }
    let st3 :=
      if ! cfg.infiniteMode && decide (cfg.maxTurns ≤ st2.currentTurn) then
        { st2 with isComplete := true }
      else st2
    let ex2 := if cfg.infiniteMode then updateEngagementScore o.recentTopicIds st3 ex1 else ex1
    ((st3, ex2), .ok retrievedMemories)

/-- One iteration of the `run` while-loop body around `executeTurn`: a thrown
error is caught, the state is marked complete to stop the loop, and the error
is re-thrown (`run` lines 1186-1195). -/
def runBody (cfg : OrchConfig) (o : TurnOracle) (st : ConvState) (ex : OrchExtra) :
    (ConvState × OrchExtra) × Option String :=
  match executeTurn cfg o st ex with
  | (p, .ok _) => (p, none)
  | ((st1, ex1), .error e) => (({ st1 with isComplete := true }, ex1), some e)

/-- The `run` while-loop over a finite prefix of per-turn oracle inputs:
loop while the state is not complete, stop and surface the error of a failing
turn.  Exhausting the oracle list ends the recursion (a modelling artifact:
the source loop would keep iterating, consuming further oracle values). -/
def run (cfg : OrchConfig) : List TurnOracle → ConvState → OrchExtra →
    (ConvState × OrchExtra) × Except String ConvState
  | [], st, ex => ((st, ex), .ok st)
  | o :: os, st, ex =>
    if st.isComplete then ((st, ex), .ok st)
    else
      match runBody cfg o st ex with
      | (p, none) => run cfg os p.1 p.2
      | (p, some e) => (p, .error e)

/-- The state reached after executing the turns of an oracle list in order
(each call of `executeTurn`, ignoring the loop's completion guard). -/
def stepsState (cfg : OrchConfig) : List TurnOracle → ConvState × OrchExtra →
    ConvState × OrchExtra
  | [], p => p
  | o :: os, p => stepsState cfg os (executeTurn cfg o p.1 p.2).1

/-- The speaker flip applied at the end of each turn. -/
def flipSpeaker (cfg : OrchConfig) (s : String) : String :=
  if s = cfg.agentA.id then cfg.agentB.id else cfg.agentA.id

-- ============================================================
-- Sample data used by the concrete witnesses
-- ============================================================

/-- A two-agent configuration with distinct speaker ids, finite mode. -/
def sampleConfig : OrchConfig :=
  { agentA := { id := "alice", name := "Alice" },
    agentB := { id := "bob", name := "Bob" },
    maxTurns := 2, usePastMemories := true, infiniteMode := false }

/-- The same configuration in infinite mode. -/
def sampleConfigInf : OrchConfig :=
  { sampleConfig with infiniteMode := true }

/-- A per-turn oracle whose generation succeeds. -/
def okOracle (reply : String) : TurnOracle :=
  { retrieval := [], genResult := .ok reply, recentTopicIds := none }

/-- A per-turn oracle whose generation fails. -/
def failOracle (msg : String) : TurnOracle :=
  { retrieval := [], genResult := .error msg, recentTopicIds := none }

/-- The guidance state of the lull scenario: three short prior messages. -/
def lullScenarioState : TopicGuidanceState :=
  { currentTopics := [],
    conversationHistory :=
      [ { turnNumber := 1, topic := none, message := "ok" },
        { turnNumber := 2, topic := none, message := "yeah" },
        { turnNumber := 3, topic := none, message := "sure" } ],
    lullDetected := false }

/-- Thirty identical context messages for the truncation scenario. -/
def thirtyMessages : List CtxMessage :=
  List.replicate 30 { content := "m", agentId := "a", role := "assistant" }

/-- A plugin whose hook always throws. -/
def throwingPlugin : Plugin :=
  { name := "bad", hook := some (fun _ => .error "boom") }

/-- A well-behaved plugin. -/
def okPlugin : Plugin :=
  { name := "good", hook := some (fun _ => .ok ()) }

/-- The default engagement-tracker configuration of the source constructor. -/
def defaultEngagementConfig : EngagementTrackerConfig :=
  { windowSize := 10, minMessageLength := 20, maxMessageLength := 200,
    lowEngagementThreshold := 4 / 10, highEngagementThreshold := 7 / 10 }

-- ============================================================
-- Theorems
-- ============================================================

theorem length_jsSliceNeg_of_le {n : Nat} {l : List α} (h : n ≤ l.length) (hn : n ≠ 0) :
    (jsSliceNeg n l).length = n := by
  simp [jsSliceNeg, hn, List.length_drop]
  omega

theorem splitWs_pos (l : List Char) :
    (∀ acc, 0 < (splitWsGo acc l).length) ∧ 0 < (splitWsSkip l).length := by
  induction l with
  | nil => constructor
           · intro acc; simp [splitWsGo]
           · simp [splitWsSkip]
  | cons c rest ih =>
    constructor
    · intro acc
      by_cases h : isWsChar c
      · simp [splitWsGo, h]
      · simpa [splitWsGo, h] using ih.1 (c :: acc)
    · by_cases h : isWsChar c
      · simpa [splitWsSkip, h] using ih.2
      · simpa [splitWsSkip, h] using ih.1 [ c ]

/-- A JS whitespace split never produces an empty array. -/
theorem splitWsStr_length_pos (s : String) : 0 < (splitWsStr s).length := by
  simpa [splitWsStr, splitWs] using (splitWs_pos s.data).1 []

theorem detectTopics_detected_eq (topics : List Topic) (message : String) :
    (detectTopics topics message).detectedTopics =
      (scoredDetections topics message).map cleanTopic := rfl

theorem detectTopics_confidence_eq (topics : List Topic) (message : String) :
    (detectTopics topics message).topicConfidence =
      match (scoredDetections topics message).head? with
      | some d => d.relevanceScore
      | none => 0 := rfl

theorem mem_scoredDetections (topics : List Topic) (message : String) (s : ScoredTopic) :
    s ∈ scoredDetections topics message ↔
      ∃ t0 ∈ topics, 0 < topicMatchCount t0 message ∧
        s = { topic := t0, matchCount := topicMatchCount t0 message,
              relevanceScore :=
                relevanceFormula (topicMatchCount t0 message) (messageWords message).length } := by
  rw [scoredDetections, List.mem_insertionSort, List.mem_filterMap]
  constructor
  · rintro ⟨t0, ht0, hsome⟩
    by_cases h : 0 < topicMatchCount t0 message
    · simp only [h, if_pos] at hsome
      cases hsome
      exact ⟨t0, ht0, h, rfl⟩
    · simp [h] at hsome
  · rintro ⟨t0, ht0, h, rfl⟩
    exact ⟨t0, ht0, by simp [h]⟩

/-- Membership in the detected-topics list: exactly the catalog topics with a
positive whole-word match count, carrying the relevance-formula score. -/
theorem mem_detectTopics (topics : List Topic) (message : String) (t : Topic) :
    t ∈ (detectTopics topics message).detectedTopics ↔
      ∃ t0 ∈ topics, 0 < topicMatchCount t0 message ∧ t = detectedEntry t0 message := by
  rw [detectTopics_detected_eq, List.mem_map]
  constructor
  · rintro ⟨s, hs, rfl⟩
    obtain ⟨t0, ht0, h, rfl⟩ := (mem_scoredDetections topics message s).1 hs
    exact ⟨t0, ht0, h, by rfl⟩
  · rintro ⟨t0, ht0, h, rfl⟩
    refine ⟨{ topic := t0, matchCount := topicMatchCount t0 message,
              relevanceScore :=
                relevanceFormula (topicMatchCount t0 message) (messageWords message).length },
            ?_, by rfl⟩
    exact (mem_scoredDetections topics message _).2 ⟨t0, ht0, h, rfl⟩

/-- The detected-topics list is sorted by descending relevance score. -/
theorem detectTopics_sorted (topics : List Topic) (message : String) :
    ((detectTopics topics message).detectedTopics).Pairwise
      (fun a b => b.relevanceScore.getD 0 ≤ a.relevanceScore.getD 0) := by
  rw [detectTopics_detected_eq, List.pairwise_map]
  have hs : List.Sorted scoredGE (scoredDetections topics message) :=
    List.sorted_insertionSort scoredGE _
  exact hs.imp (fun {a b} h => by simpa [cleanTopic, scoredGE] using h)

/-- The dominant topic is the head of the sorted detected-topics list. -/
theorem detectTopics_dominant_head (topics : List Topic) (message : String) :
    (detectTopics topics message).dominantTopic =
      ((detectTopics topics message).detectedTopics).head? := rfl

/-- When a dominant topic exists, the confidence equals its relevance score. -/
theorem detectTopics_confidence_dominant (topics : List Topic) (message : String) (t : Topic)
    (h : (detectTopics topics message).dominantTopic = some t) :
    some ((detectTopics topics message).topicConfidence) = t.relevanceScore := by
  rw [detectTopics_dominant_head, detectTopics_detected_eq, List.head?_map] at h
  rw [detectTopics_confidence_eq]
  rcases hh : (scoredDetections topics message).head? with _ | s
  · rw [hh] at h; cases h
  · rw [hh] at h
    cases h
    rfl

/-- When no topic is detected, the confidence is `0`. -/
theorem detectTopics_confidence_none (topics : List Topic) (message : String)
    (h : (detectTopics topics message).dominantTopic = none) :
    (detectTopics topics message).topicConfidence = 0 := by
  rw [detectTopics_dominant_head, detectTopics_detected_eq, List.head?_map] at h
  rw [detectTopics_confidence_eq]
  rcases hh : (scoredDetections topics message).head? with _ | s
  · rfl
  · rw [hh] at h; cases h

-- ============================================================
-- General lemmas
-- ============================================================

theorem jsJoin_head_le (sep x : String) (xs : List String) :
    x.length ≤ (jsJoin sep (x :: xs)).length := by
  cases xs with
  | nil => simp [jsJoin]
  | cons y rest =>
    simp only [jsJoin, String.length_append]
    omega

theorem list_avg_bounds (l : List ℚ) (hne : l ≠ [])
    (h : ∀ x ∈ l, 0 ≤ x ∧ x ≤ 1) :
    0 ≤ l.sum / (l.length : ℚ) ∧ l.sum / (l.length : ℚ) ≤ 1 := by
  have hlen : 0 < (l.length : ℚ) := by
    have := List.length_pos.mpr hne
    exact_mod_cast this
  constructor
  · exact div_nonneg (List.sum_nonneg (fun x hx => (h x hx).1)) (le_of_lt hlen)
  · rw [div_le_one hlen]
    have := List.sum_le_card_nsmul l 1 (fun x hx => (h x hx).2)
    simpa using this

theorem relevanceFormula_bounds (mc wc : Nat) :
    0 ≤ relevanceFormula mc wc ∧ relevanceFormula mc wc ≤ 1 := by
  constructor
  · exact le_min (by norm_num)
      (div_nonneg (Nat.cast_nonneg mc)
        (mul_nonneg (Nat.cast_nonneg wc) (by norm_num)))
  · exact min_le_left 1 _

-- ============================================================
-- Claim theorems
-- ============================================================

/-- C10: the flow manager's emotional intensity is 0.5 at construction and
after reset, and after every update it equals
min(1, 0.5 + 0.1 × intense-keyword count); hence it always lies in
[0.5, 1] and can never fall below 0.5. -/
theorem claim_C10_emotionalIntensity :
    initialEmotionalFlow.intensity = 1 / 2 ∧
    (∀ content st, (updateEmotionalFlow content st).intensity =
        min 1 (1 / 2 + (intenseCount content : ℚ) * (1 / 10))) ∧
    (∀ content st, 1 / 2 ≤ (updateEmotionalFlow content st).intensity ∧
        (updateEmotionalFlow content st).intensity ≤ 1) := by
  refine ⟨rfl, fun content st => rfl, fun content st => ⟨?_, ?_⟩⟩
  · exact le_min (by norm_num)
      (le_add_of_nonneg_right
        (mul_nonneg (Nat.cast_nonneg (intenseCount content)) (by norm_num)))
  · exact min_le_left 1 _

/-- C4: every registered plugin exposing the hook is invoked, in registration
order, with the same event payload; a throwing hook is caught and only
logged, the remaining plugins still receive the event, and no exception
escapes the dispatch (the result is always `Except.ok`).  The concrete
conjunct shows a throwing first plugin not preventing dispatch to a second
well-behaved one. -/
theorem claim_C4_pluginDispatch (registry : List Plugin) (event : String) :
    (∃ logs, notifyPlugins registry event =
      .ok ((registry.filter (fun p => p.hook.isSome)).map (fun p => (p.name, event)), logs)) ∧
    notifyPlugins [ throwingPlugin, okPlugin ] "evt" =
      .ok ([ ("bad", "evt"), ("good", "evt") ], [ "boom" ]) := by
  constructor
  · induction registry with
    | nil => exact ⟨[], rfl⟩
    | cons p rest ih =>
      obtain ⟨logs, hlogs⟩ := ih
      cases hh : p.hook with
      | none => exact ⟨logs, by simp [notifyPlugins, hh, hlogs]⟩
      | some handler =>
        cases hr : handler event with
        | ok u => exact ⟨logs, by simp [notifyPlugins, hh, hr, hlogs]⟩
        | error e => exact ⟨e :: logs, by simp [notifyPlugins, hh, hr, hlogs]⟩
  · rfl

/-- C9: with memory reuse on and no memory injected yet, the retrieval phase
of `executeTurn` maps every retrieved fragment through the 12-word
truncation, and sets the injected flag exactly when the result list is
non-empty and the turn index is below 3; once the flag is set no retrieval
happens on any later turn. -/
theorem claim_C9_memoryInjection (cfg : OrchConfig) (retrieval : List String)
    (st : ConvState) (ex : OrchExtra)
    (hmem : cfg.usePastMemories = true) (hflag : ex.pastMemoriesInjected = false) :
    (memoryPhase cfg retrieval st ex).1 = retrieval.map truncateMemory ∧
    (∀ m ∈ (memoryPhase cfg retrieval st ex).1, ∃ ws : List String,
        ws.length ≤ 12 ∧ m = jsJoin " " ws) ∧
    (memoryPhase cfg retrieval st ex).2 =
      (decide (retrieval ≠ []) && decide (st.currentTurn < 3)) ∧
    (∀ cfg2 retrieval2 st2 ex2, ex2.pastMemoriesInjected = true →
      (memoryPhase cfg2 retrieval2 st2 ex2).1 = [] ∧
      (memoryPhase cfg2 retrieval2 st2 ex2).2 = true) := by
  have h1 : (memoryPhase cfg retrieval st ex).1 = retrieval.map truncateMemory := by
    simp only [memoryPhase, hmem, hflag, Bool.not_false, Bool.and_true, if_true]
    split_ifs <;> rfl
  refine ⟨h1, ?_, ?_, ?_⟩
  · intro m hm
    rw [h1, List.mem_map] at hm
    obtain ⟨r, _, rfl⟩ := hm
    refine ⟨(splitWsStr (jsTrim r)).take 12, ?_, rfl⟩
    exact List.length_take_le 12 (splitWsStr (jsTrim r))
  · have hmap : (retrieval.map truncateMemory ≠ []) ↔ (retrieval ≠ []) := by
      simp
    by_cases hr : retrieval = []
    · subst hr
      simp [memoryPhase, hmem, hflag]
    · by_cases ht : st.currentTurn < 3
      · simp [memoryPhase, hmem, hflag, hr, ht, hmap]
      · simp [memoryPhase, hmem, hflag, hr, ht, hmap]
  · intro cfg2 retrieval2 st2 ex2 hinj
    cases hu : cfg2.usePastMemories with
    | false => simp [memoryPhase, hu, hinj]
    | true => simp [memoryPhase, hu, hinj]

/-- Witness for C9: on turn 0 with one retrieved fragment the injected flag
is set. -/
theorem claim_C9_memoryInjection_witness :
    (memoryPhase sampleConfig [ "hello there friend" ] (initState sampleConfig) initExtra).2 =
      (decide (([ "hello there friend" ] : List String) ≠ []) &&
        decide ((initState sampleConfig).currentTurn < 3)) :=
  (claim_C9_memoryInjection sampleConfig [ "hello there friend" ]
    (initState sampleConfig) initExtra rfl rfl).2.2.1

/-- C5: a failing LLM generation call is fatal: `executeTurn` re-throws the
error without retrying and without touching the conversation state, the run
loop catches it, marks the conversation complete (stopping the loop) and
re-throws, so the error reaches the caller of `run`. -/
theorem claim_C5_generationFailureFatal (cfg : OrchConfig) (o : TurnOracle)
    (os : List TurnOracle) (st : ConvState) (ex : OrchExtra) (e : String)
    (hfail : o.genResult = .error e) (hrun : st.isComplete = false) :
    (executeTurn cfg o st ex).2 = .error e ∧
    (executeTurn cfg o st ex).1.1 = st ∧
    (run cfg (o :: os) st ex).2 = .error e ∧
    (run cfg (o :: os) st ex).1.1 = { st with isComplete := true } := by
  refine ⟨?_, ?_, ?_, ?_⟩ <;>
    simp [run, runBody, executeTurn, hfail, hrun]

theorem jsSliceNeg_of_short {l : List α} {n : Nat} (h : l.length ≤ n) :
    jsSliceNeg n l = l := by
  rcases Nat.eq_zero_or_pos n with hn | hn
  · simp [jsSliceNeg, hn]
  · have : l.length - n = 0 := by omega
    simp [jsSliceNeg, Nat.pos_iff_ne_zero.mp hn, this]

/-- C2: lull detection needs at least `lullThreshold` prior history entries
and then holds exactly when either every one of the last `lullThreshold`
messages and the current message are shorter than `minMessageLength`, or the
mean Jaccard word-set overlap of the current message with each of those
messages exceeds 0.7.  (For the mean to range over at least the current
message and one other, the threshold must be at least 2; the configured
default is 3.) -/
theorem claim_C2_detectLull (lullThreshold minMessageLength : Nat)
    (hlt : 2 ≤ lullThreshold) (state : TopicGuidanceState) (currentMessage : String) :
    (state.conversationHistory.length < lullThreshold →
      detectLull lullThreshold minMessageLength state currentMessage = false) ∧
    (lullThreshold ≤ state.conversationHistory.length →
      (detectLull lullThreshold minMessageLength state currentMessage = true ↔
        ((∀ e ∈ jsSliceNeg lullThreshold state.conversationHistory,
            e.message.length < minMessageLength) ∧
          currentMessage.length < minMessageLength) ∨
        7 / 10 <
          ((jsSliceNeg lullThreshold state.conversationHistory).map
              (fun e => jaccardSimilarity (wordSet currentMessage) e.message)).sum /
            (lullThreshold : ℚ))) := by
  have hne : lullThreshold ≠ 0 := by omega
  constructor
  · intro hlen
    have hrec : jsSliceNeg lullThreshold state.conversationHistory =
        state.conversationHistory := jsSliceNeg_of_short (le_of_lt hlen)
    simp only [detectLull, hrec]
    rw [if_pos hlen]
  · intro hlen
    have hreclen : (jsSliceNeg lullThreshold state.conversationHistory).length =
        lullThreshold := length_jsSliceNeg_of_le hlen hne
    have hsim : calculateRecentMessageSimilarity lullThreshold state currentMessage =
        ((jsSliceNeg lullThreshold state.conversationHistory).map
            (fun e => jaccardSimilarity (wordSet currentMessage) e.message)).sum /
          (lullThreshold : ℚ) := by
      simp only [calculateRecentMessageSimilarity, hreclen]
      rw [if_neg (by omega), if_pos (by omega)]
    simp only [detectLull, hreclen]
    rw [if_neg (lt_irrefl lullThreshold), hsim]
    simp [List.all_eq_true, decide_eq_true_iff]

/-- Witness for C2: three short prior messages ("ok", "yeah", "sure") and a
15-character current message with threshold 3 and minimum length 20 trigger a
lull. -/
theorem claim_C2_detectLull_witness :
    detectLull 3 20 lullScenarioState "this is 15 char" = true := by
  refine ((claim_C2_detectLull 3 20 (by norm_num) lullScenarioState
    "this is 15 char").2 (by decide)).mpr (Or.inl ⟨?_, by decide⟩)
  decide

theorem summarizeContext_some (messages : List CtxMessage) (hne : messages ≠ []) :
    ∃ s, summarizeContext messages = some s ∧ 0 < s.length := by
  have hl : ¬ messages.length = 0 := by
    simpa [List.length_eq_zero] using hne
  have hfirst : 0 < ((messages.take 2).map messagePreview).length := by
    simp only [List.length_map, List.length_take]
    omega
  have hlast : 0 < ((jsSliceNeg 2 messages).map messagePreview).length := by
    rcases Nat.lt_or_ge messages.length 2 with h2 | h2
    · rw [jsSliceNeg_of_short (le_of_lt h2)]
      simp only [List.length_map]
      omega
    · rw [List.length_map, length_jsSliceNeg_of_le h2 (by norm_num)]
      norm_num
  simp only [summarizeContext, hl, if_false]
  refine ⟨_, rfl, ?_⟩
  rw [if_pos hfirst, if_pos hlast]
  by_cases htw :
      0 < ((((wordFreqOf (splitWsStr (jsToLower
        (jsJoin " " (messages.map (fun m => m.content)))))).insertionSort
          freqGE).take 10).map (fun p => p.1)).length
  · rw [if_pos htw]
    refine lt_of_lt_of_le ?_ (jsJoin_head_le _ _ _)
    simp only [String.length_append]
    have h18 : 0 < ("Topics discussed: " : String).length := by decide
    omega
  · rw [if_neg htw]
    refine lt_of_lt_of_le ?_ (jsJoin_head_le _ _ _)
    simp only [String.length_append]
    have h14 : 0 < ("Started with: " : String).length := by decide
    omega

/-- C3: context-window management returns the input unchanged when it fits
the (positive) cap; beyond the cap it keeps exactly the most recent
cap-many messages, prepending a synthesized summary entry exactly when
summarization is enabled (30 messages with cap 25 and summarization on give
1 + 25 = 26 entries). -/
theorem claim_C3_contextWindow (cap : Nat) (enableSum : Bool)
    (messages : List CtxMessage) (hcap : 0 < cap) :
    (messages.length ≤ cap → manageContextWindow cap enableSum messages = messages) ∧
    (cap < messages.length →
      (enableSum = false →
        manageContextWindow cap enableSum messages = jsSliceNeg cap messages ∧
        (manageContextWindow cap enableSum messages).length = cap) ∧
      (enableSum = true → ∃ s : String,
        summarizeContext (messages.take (messages.length - cap)) = some s ∧
        manageContextWindow cap enableSum messages =
          summaryEntry s :: jsSliceNeg cap messages ∧
        (manageContextWindow cap enableSum messages).length = cap + 1)) := by
  have hne : cap ≠ 0 := Nat.pos_iff_ne_zero.mp hcap
  constructor
  · intro hle
    simp [manageContextWindow, hle]
  · intro hgt
    have hcond : ¬ (cap = 0 ∨ messages.length ≤ cap) := by
      push_neg
      exact ⟨hne, hgt⟩
    have hreclen : (jsSliceNeg cap messages).length = cap :=
      length_jsSliceNeg_of_le (le_of_lt hgt) hne
    constructor
    · intro hsum
      subst hsum
      rw [manageContextWindow, if_neg hcond]
      exact ⟨rfl, hreclen⟩
    · intro hsum
      subst hsum
      have holder : messages.take (messages.length - cap) ≠ [] := by
        have : (messages.take (messages.length - cap)).length =
            messages.length - cap := by
          rw [List.length_take]
          omega
        intro hnil
        rw [hnil] at this
        simp at this
        omega
      obtain ⟨s, hs, hslen⟩ := summarizeContext_some _ holder
      have holderlen : 0 < (messages.take (messages.length - cap)).length :=
        List.length_pos.mpr holder
      have key : manageContextWindow cap true messages =
          summaryEntry s :: jsSliceNeg cap messages := by
        rw [manageContextWindow, if_neg hcond, if_pos rfl, if_pos holderlen, hs]
        show (if s.length ≠ 0 then summaryEntry s :: jsSliceNeg cap messages
            else jsSliceNeg cap messages) = summaryEntry s :: jsSliceNeg cap messages
        rw [if_pos (show s.length ≠ 0 by omega)]
      refine ⟨s, hs, key, ?_⟩
      rw [key]
      simp [hreclen]

/-- Witness for C3: 30 messages, cap 25, summarization enabled, yield exactly
26 output entries. -/
theorem claim_C3_contextWindow_witness :
    (manageContextWindow 25 true thirtyMessages).length = 25 + 1 := by
  obtain ⟨s, _, _, hlen⟩ :=
    ((claim_C3_contextWindow 25 true thirtyMessages (by norm_num)).2
      (by decide)).2 rfl
  exact hlen

/-- Witness for C5: a concrete failing first turn surfaces its error from
`run` and marks the state complete. -/
theorem claim_C5_generationFailureFatal_witness :
    (run sampleConfig [ failOracle "llm down" ] (initState sampleConfig) initExtra).2 =
      .error "llm down" ∧
    (run sampleConfig [ failOracle "llm down" ] (initState sampleConfig) initExtra).1.1 =
      { initState sampleConfig with isComplete := true } :=
  ⟨(claim_C5_generationFailureFatal sampleConfig (failOracle "llm down") []
      (initState sampleConfig) initExtra "llm down" rfl rfl).2.2.1,
   (claim_C5_generationFailureFatal sampleConfig (failOracle "llm down") []
      (initState sampleConfig) initExtra "llm down" rfl rfl).2.2.2⟩

theorem executeTurn_ok_state (cfg : OrchConfig) (o : TurnOracle) (st : ConvState)
    (ex : OrchExtra) (c : String) (h : o.genResult = .ok c) :
    (executeTurn cfg o st ex).1.1.currentTurn = st.currentTurn + 1 ∧
    (executeTurn cfg o st ex).1.1.currentAgentId = flipSpeaker cfg st.currentAgentId ∧
    (executeTurn cfg o st ex).1.1.isComplete =
      (if cfg.infiniteMode = false ∧ cfg.maxTurns ≤ st.currentTurn + 1 then true
       else st.isComplete) := by
  cases hinf : cfg.infiniteMode with
  | true => simp [executeTurn, h, hinf, flipSpeaker]
  | false =>
    by_cases hle : cfg.maxTurns ≤ st.currentTurn + 1
    · simp [executeTurn, h, hinf, flipSpeaker, hle]
    · simp [executeTurn, h, hinf, flipSpeaker, hle]

theorem stepsState_speaker_turn (cfg : OrchConfig) (os : List TurnOracle)
    (hok : ∀ o ∈ os, ∃ c, o.genResult = Except.ok c) (p : ConvState × OrchExtra) :
    (stepsState cfg os p).1.currentAgentId =
      (flipSpeaker cfg)^[os.length] p.1.currentAgentId ∧
    (stepsState cfg os p).1.currentTurn = p.1.currentTurn + os.length := by
  induction os generalizing p with
  | nil => simp [stepsState]
  | cons o os ih =>
    obtain ⟨c, hc⟩ := hok o (List.mem_cons_self o os)
    have hrest := ih (fun o2 ho2 => hok o2 (List.mem_cons_of_mem o ho2))
      (executeTurn cfg o p.1 p.2).1
    have hstep := executeTurn_ok_state cfg o p.1 p.2 c hc
    constructor
    · rw [stepsState, hrest.1, hstep.2.1, List.length_cons,
        Function.iterate_succ_apply]
    · rw [stepsState, hrest.2, hstep.1, List.length_cons]
      omega

theorem flipSpeaker_iterate (cfg : OrchConfig)
    (hne : cfg.agentA.id ≠ cfg.agentB.id) (n : Nat) :
    (flipSpeaker cfg)^[n] cfg.agentA.id =
      if n % 2 = 0 then cfg.agentA.id else cfg.agentB.id := by
  have hne2 : cfg.agentB.id ≠ cfg.agentA.id := Ne.symm hne
  induction n with
  | zero => simp
  | succ n ih =>
    rw [Function.iterate_succ_apply', ih]
    by_cases h : n % 2 = 0
    · have h2 : ¬ (n + 1) % 2 = 0 := by omega
      simp [h, h2, flipSpeaker]
    · have h2 : (n + 1) % 2 = 0 := by omega
      simp [h, h2, flipSpeaker, hne2]

/-- C7: with two distinct speaker ids, the active speaker starts as agent A
and strictly alternates between the two ids after every executed turn, for
any number of turns. -/
theorem claim_C7_turnAlternation (cfg : OrchConfig)
    (hne : cfg.agentA.id ≠ cfg.agentB.id)
    (os : List TurnOracle) (hok : ∀ o ∈ os, ∃ c, o.genResult = Except.ok c) :
    (initState cfg).currentAgentId = cfg.agentA.id ∧
    (∀ k, k ≤ os.length →
      (stepsState cfg (os.take k) (initState cfg, initExtra)).1.currentAgentId =
        if k % 2 = 0 then cfg.agentA.id else cfg.agentB.id) ∧
    (∀ k, k < os.length →
      (stepsState cfg (os.take (k + 1)) (initState cfg, initExtra)).1.currentAgentId ≠
        (stepsState cfg (os.take k) (initState cfg, initExtra)).1.currentAgentId) := by
  have hspeaker : ∀ k, k ≤ os.length →
      (stepsState cfg (os.take k) (initState cfg, initExtra)).1.currentAgentId =
        if k % 2 = 0 then cfg.agentA.id else cfg.agentB.id := by
    intro k hk
    have hokk : ∀ o ∈ os.take k, ∃ c, o.genResult = Except.ok c :=
      fun o ho => hok o (List.take_subset k os ho)
    have hst := (stepsState_speaker_turn cfg (os.take k) hokk
      (initState cfg, initExtra)).1
    rw [hst]
    show (flipSpeaker cfg)^[(os.take k).length] cfg.agentA.id = _
    rw [List.length_take, min_eq_left hk, flipSpeaker_iterate cfg hne]
  refine ⟨rfl, hspeaker, ?_⟩
  intro k hk
  rw [hspeaker (k + 1) (by omega), hspeaker k (le_of_lt hk)]
  by_cases h : k % 2 = 0
  · have h2 : ¬ (k + 1) % 2 = 0 := by omega
    simp only [h, h2, if_true, if_false]
    exact Ne.symm hne
  · have h2 : (k + 1) % 2 = 0 := by omega
    simp only [h, h2, if_true, if_false]
    exact hne

/-- Witness for C7: after two successfully executed turns the speaker is
agent A again (so it was agent B after the first turn). -/
theorem claim_C7_turnAlternation_witness :
    (stepsState sampleConfig ([ okOracle "hi", okOracle "yo" ].take 2)
        (initState sampleConfig, initExtra)).1.currentAgentId =
      if 2 % 2 = 0 then sampleConfig.agentA.id else sampleConfig.agentB.id := by
  refine (claim_C7_turnAlternation sampleConfig (by decide)
    [ okOracle "hi", okOracle "yo" ] ?_).2.1 2 (by norm_num)
  intro o ho
  simp only [List.mem_cons, List.not_mem_nil, or_false] at ho
  rcases ho with rfl | rfl
  · exact ⟨"hi", rfl⟩
  · exact ⟨"yo", rfl⟩

theorem stepsState_complete_finite (cfg : OrchConfig) (hinf : cfg.infiniteMode = false)
    (os : List TurnOracle) (hok : ∀ o ∈ os, ∃ c, o.genResult = Except.ok c)
    (p : ConvState × OrchExtra)
    (hp : p.1.isComplete = decide (cfg.maxTurns ≤ p.1.currentTurn)) :
    (stepsState cfg os p).1.isComplete =
      decide (cfg.maxTurns ≤ p.1.currentTurn + os.length) := by
  induction os generalizing p with
  | nil => simpa [stepsState] using hp
  | cons o os ih =>
    obtain ⟨c, hc⟩ := hok o (List.mem_cons_self o os)
    have hstep := executeTurn_ok_state cfg o p.1 p.2 c hc
    have hnext : (executeTurn cfg o p.1 p.2).1.1.isComplete =
        decide (cfg.maxTurns ≤ (executeTurn cfg o p.1 p.2).1.1.currentTurn) := by
      rw [hstep.2.2, hstep.1]
      by_cases h : cfg.maxTurns ≤ p.1.currentTurn + 1
      · simp [hinf, h]
      · have hlt : ¬ cfg.maxTurns ≤ p.1.currentTurn := by omega
        simp [hinf, h, hp, hlt]
    rw [stepsState]
    rw [ih (fun o2 ho2 => hok o2 (List.mem_cons_of_mem o ho2)) _ hnext, hstep.1]
    have harith : p.1.currentTurn + 1 + os.length =
        p.1.currentTurn + (o :: os).length := by
      rw [List.length_cons]
      omega
    rw [harith]

theorem stepsState_complete_infinite (cfg : OrchConfig) (hinf : cfg.infiniteMode = true)
    (os : List TurnOracle) (hok : ∀ o ∈ os, ∃ c, o.genResult = Except.ok c)
    (p : ConvState × OrchExtra) (hp : p.1.isComplete = false) :
    (stepsState cfg os p).1.isComplete = false := by
  induction os generalizing p with
  | nil => simpa [stepsState] using hp
  | cons o os ih =>
    obtain ⟨c, hc⟩ := hok o (List.mem_cons_self o os)
    have hstep := executeTurn_ok_state cfg o p.1 p.2 c hc
    have hnext : (executeTurn cfg o p.1 p.2).1.1.isComplete = false := by
      rw [hstep.2.2]
      simp [hinf, hp]
    rw [stepsState]
    exact ih (fun o2 ho2 => hok o2 (List.mem_cons_of_mem o ho2)) _ hnext

/-- C8: with infinite mode off, the completion flag after n executed turns
holds exactly when the turn counter (= n) has reached the positive configured
maximum; with infinite mode on, no number of executed turns ever sets the
flag — the infinite-mode health check only updates monitoring counters and
logs — so a run can only end through an unhandled generation error. -/
theorem claim_C8_completionRule (cfg : OrchConfig) (hmax : 0 < cfg.maxTurns)
    (os : List TurnOracle) (hok : ∀ o ∈ os, ∃ c, o.genResult = Except.ok c) :
    (cfg.infiniteMode = false →
      (stepsState cfg os (initState cfg, initExtra)).1.isComplete =
        decide (cfg.maxTurns ≤ os.length) ∧
      (stepsState cfg os (initState cfg, initExtra)).1.currentTurn = os.length) ∧
    (cfg.infiniteMode = true →
      (stepsState cfg os (initState cfg, initExtra)).1.isComplete = false) := by
  constructor
  · intro hinf
    constructor
    · have hinit : (initState cfg, initExtra).1.isComplete =
          decide (cfg.maxTurns ≤ (initState cfg, initExtra).1.currentTurn) := by
        simp [initState]
        omega
      have := stepsState_complete_finite cfg hinf os hok (initState cfg, initExtra) hinit
      simpa [initState] using this
    · have := (stepsState_speaker_turn cfg os hok (initState cfg, initExtra)).2
      simpa [initState] using this
  · intro hinf
    exact stepsState_complete_infinite cfg hinf os hok (initState cfg, initExtra) rfl

/-- Witness for C8: with maxTurns 2 and two successful turns the completion
flag equals the decision of 2 ≤ 2 (it is set exactly at the maximum). -/
theorem claim_C8_completionRule_witness :
    (stepsState sampleConfig [ okOracle "hi", okOracle "yo" ]
        (initState sampleConfig, initExtra)).1.isComplete =
      decide (sampleConfig.maxTurns ≤ ([ okOracle "hi", okOracle "yo" ] :
        List TurnOracle).length) := by
  refine ((claim_C8_completionRule sampleConfig (by decide)
    [ okOracle "hi", okOracle "yo" ] ?_).1 rfl).1
  intro o ho
  simp only [List.mem_cons, List.not_mem_nil, or_false] at ho
  rcases ho with rfl | rfl
  · exact ⟨"hi", rfl⟩
  · exact ⟨"yo", rfl⟩

/-- C1: `detectTopics` assigns each catalog topic with at least one
case-insensitive whole-word keyword match the relevance
min(1, matchCount / (wordCount × 0.1)), excludes zero-match topics, sorts by
descending relevance, takes the head as the dominant topic whose relevance is
the confidence (0 and no dominant topic when nothing matches), and labels
sentiment by comparing the fixed positive/negative word counts with ties
neutral; on "I love programming and building new software apps" the dominant
topic is Technology with positive relevance and the sentiment is positive. -/
theorem claim_C1_detectTopics (message : String) :
    (∀ t : Topic, t ∈ (detectTopics topicDefinitions message).detectedTopics ↔
      ∃ t0 ∈ topicDefinitions, 0 < topicMatchCount t0 message ∧
        t = detectedEntry t0 message) ∧
    ((detectTopics topicDefinitions message).detectedTopics).Pairwise
      (fun a b => b.relevanceScore.getD 0 ≤ a.relevanceScore.getD 0) ∧
    (detectTopics topicDefinitions message).dominantTopic =
      ((detectTopics topicDefinitions message).detectedTopics).head? ∧
    (∀ t, (detectTopics topicDefinitions message).dominantTopic = some t →
      some ((detectTopics topicDefinitions message).topicConfidence) =
        t.relevanceScore) ∧
    ((detectTopics topicDefinitions message).dominantTopic = none →
      (detectTopics topicDefinitions message).topicConfidence = 0) ∧
    ((detectTopics topicDefinitions message).messageAnalysis.sentiment =
      (if ((messageWords message).filter
            (fun w => negativeWords.contains w)).length <
          ((messageWords message).filter
            (fun w => positiveWords.contains w)).length then Sentiment.positive
       else if ((messageWords message).filter
            (fun w => positiveWords.contains w)).length <
          ((messageWords message).filter
            (fun w => negativeWords.contains w)).length then Sentiment.negative
       else Sentiment.neutral)) ∧
    (detectTopics topicDefinitions
        "I love programming and building new software apps").dominantTopic.map
      Topic.name = some "Technology" ∧
    0 < (detectTopics topicDefinitions
        "I love programming and building new software apps").topicConfidence ∧
    (detectTopics topicDefinitions
        "I love programming and building new software apps").messageAnalysis.sentiment =
      Sentiment.positive := by
  refine ⟨mem_detectTopics topicDefinitions message,
    detectTopics_sorted topicDefinitions message,
    detectTopics_dominant_head topicDefinitions message,
    detectTopics_confidence_dominant topicDefinitions message,
    detectTopics_confidence_none topicDefinitions message,
    rfl, by decide, ?_, by decide⟩
  have hconf : (detectTopics topicDefinitions
      "I love programming and building new software apps").topicConfidence =
      relevanceFormula 2 8 := rfl
  rw [hconf, relevanceFormula]
  apply lt_min
  · norm_num
  · norm_num

/-- Witness for C1: a message matching no catalog keyword yields confidence
0, via the no-dominant-topic clause. -/
theorem claim_C1_detectTopics_witness :
    (detectTopics topicDefinitions "zzz qqq").topicConfidence = 0 :=
  (claim_C1_detectTopics "zzz qqq").2.2.2.2.1 (by rfl)

theorem detectTopics_confidence_bounds (topics : List Topic) (message : String) :
    0 ≤ (detectTopics topics message).topicConfidence ∧
    (detectTopics topics message).topicConfidence ≤ 1 := by
  rw [detectTopics_confidence_eq]
  cases hl : scoredDetections topics message with
  | nil => norm_num
  | cons d rest =>
    have hd : d ∈ scoredDetections topics message := by
      rw [hl]
      exact List.mem_cons_self d rest
    obtain ⟨t0, _, _, heq⟩ := (mem_scoredDetections topics message d).1 hd
    have hb := relevanceFormula_bounds (topicMatchCount t0 message)
      (messageWords message).length
    show 0 ≤ d.relevanceScore ∧ d.relevanceScore ≤ 1
    rw [heq]
    exact hb

theorem div_bounds_of_le {a b : ℚ} (ha : 0 ≤ a) (hb : 0 < b) (hab : a ≤ b) :
    0 ≤ a / b ∧ a / b ≤ 1 :=
  ⟨div_nonneg ha (le_of_lt hb), (div_le_one hb).mpr hab⟩

theorem calculateMessageDiversity_bounds (cfg : EngagementTrackerConfig)
    (history : List TrackedMessage) :
    0 ≤ calculateMessageDiversity cfg history ∧
    calculateMessageDiversity cfg history ≤ 1 := by
  simp only [calculateMessageDiversity]
  set topics :=
    ((jsSliceNeg cfg.windowSize history).filterMap (fun m => m.topics)).flatten with htop
  set allWords :=
    ((jsSliceNeg cfg.windowSize history).map
      (fun m => splitWsStr (jsToLower m.content))).flatten with hall
  have h1 : 0 ≤ (if 0 < topics.length then
      (topics.dedup.length : ℚ) / max 1 (topics.length : ℚ) else 1 / 2) ∧
      (if 0 < topics.length then
      (topics.dedup.length : ℚ) / max 1 (topics.length : ℚ) else 1 / 2) ≤ 1 := by
    split_ifs with h
    · refine div_bounds_of_le (Nat.cast_nonneg _) (lt_of_lt_of_le one_pos (le_max_left _ _)) ?_
      calc (topics.dedup.length : ℚ) ≤ (topics.length : ℚ) := by
            exact_mod_cast (List.dedup_sublist topics).length_le
        _ ≤ max 1 (topics.length : ℚ) := le_max_right _ _
    · norm_num
  have h2 : 0 ≤ (if 0 < allWords.length then
      (allWords.dedup.length : ℚ) / (allWords.length : ℚ) else 1 / 2) ∧
      (if 0 < allWords.length then
      (allWords.dedup.length : ℚ) / (allWords.length : ℚ) else 1 / 2) ≤ 1 := by
    split_ifs with h
    · refine div_bounds_of_le (Nat.cast_nonneg _) (by exact_mod_cast h) ?_
      exact_mod_cast (List.dedup_sublist allWords).length_le
    · norm_num
  constructor
  · linarith [h1.1, h2.1]
  · linarith [h1.2, h2.2]

theorem calculateResponseQuality_bounds (cfg : EngagementTrackerConfig)
    (history : List TrackedMessage) :
    0 ≤ calculateResponseQuality cfg history ∧
    calculateResponseQuality cfg history ≤ 1 := by
  simp only [calculateResponseQuality]
  split_ifs with h
  · norm_num
  · have hne : jsSliceNeg cfg.windowSize history ≠ [] := by
      intro hnil
      rw [hnil] at h
      simp at h
    apply list_avg_bounds
    · simpa using hne
    intro x hx
    rw [List.mem_map] at hx
    obtain ⟨m, _, rfl⟩ := hx
    have hlen : (0 : ℚ) ≤ (m.content.length : ℚ) := Nat.cast_nonneg _
    split_ifs with h1 h2
    · norm_num
    · have hm : (0 : ℚ) < cfg.minMessageLength := lt_of_le_of_lt hlen h2
      exact ⟨div_nonneg hlen (le_of_lt hm), le_of_lt ((div_lt_one hm).mpr h2)⟩
    · push_neg at h1 h2
      have hgt : cfg.maxMessageLength < (m.content.length : ℚ) := h1 h2
      constructor
      · exact le_trans (by norm_num) (le_max_left _ _)
      · apply max_le (by norm_num)
        have : 0 < ((m.content.length : ℚ) - cfg.maxMessageLength) / 200 :=
          div_pos (by linarith) (by norm_num)
        linarith

theorem flowFinal_bounds (sm tot : Nat) (htot : tot ≠ 0) (hle : sm ≤ tot)
    (pen : ℚ) (hpen : 0 ≤ pen) :
    0 ≤ max 0 ((sm : ℚ) / (tot : ℚ) - pen) ∧
    max 0 ((sm : ℚ) / (tot : ℚ) - pen) ≤ 1 := by
  have htotp : (0 : ℚ) < (tot : ℚ) := by exact_mod_cast Nat.pos_of_ne_zero htot
  have hr : (sm : ℚ) / (tot : ℚ) ≤ 1 := (div_le_one htotp).mpr (by exact_mod_cast hle)
  exact ⟨le_max_left 0 _, max_le (by norm_num) (by linarith)⟩

theorem calculateTopicFlowSmoothness_bounds (cfg : EngagementTrackerConfig)
    (history : List TrackedMessage) :
    0 ≤ calculateTopicFlowSmoothness cfg history ∧
    calculateTopicFlowSmoothness cfg history ≤ 1 := by
  simp only [calculateTopicFlowSmoothness]
  split_ifs with h1 h2 h3
  · norm_num
  · norm_num
  · exact flowFinal_bounds _ _ h2 (Nat.le_add_left _ _) (2 / 10) (by norm_num)
  · exact flowFinal_bounds _ _ h2 (Nat.le_add_left _ _) 0 (le_refl 0)

theorem messageDepthScore_bounds (content : String) :
    0 ≤ messageDepthScore content ∧ messageDepthScore content ≤ 1 := by
  simp only [messageDepthScore]
  constructor
  · refine le_min (by norm_num) ?_
    have h1 : (0 : ℚ) ≤ min (3 / 10)
        ((((jsToLower content).data.filter (fun c => c == '?')).length : ℚ) * (1 / 10)) := by
      refine le_min (by norm_num) ?_
      exact mul_nonneg (Nat.cast_nonneg _) (by norm_num)
    have h2 : (0 : ℚ) ≤
        (if detailWords.any (fun w => jsIncludes (jsToLower content) w) then
          (2 : ℚ) / 10 else 0) := by
      split_ifs <;> norm_num
    have h3 : (0 : ℚ) ≤ min (2 / 10)
        (((referenceWords.filter (fun w => jsIncludes (jsToLower content) w)).length : ℚ) *
          (5 / 100)) := by
      refine le_min (by norm_num) ?_
      exact mul_nonneg (Nat.cast_nonneg _) (by norm_num)
    have h4 : (0 : ℚ) ≤ (if 50 < content.length then (3 : ℚ) / 10 else 0) := by
      split_ifs <;> norm_num
    linarith
  · exact min_le_left 1 _

theorem calculateConversationDepth_bounds (cfg : EngagementTrackerConfig)
    (history : List TrackedMessage) :
    0 ≤ calculateConversationDepth cfg history ∧
    calculateConversationDepth cfg history ≤ 1 := by
  simp only [calculateConversationDepth]
  split_ifs with h
  · norm_num
  · have hne : jsSliceNeg cfg.windowSize history ≠ [] := by
      intro hnil
      rw [hnil] at h
      simp at h
    have hlenmap :
        ((jsSliceNeg cfg.windowSize history).map
          (fun m => messageDepthScore m.content)).length =
        (jsSliceNeg cfg.windowSize history).length := List.length_map _ _
    rw [← hlenmap]
    refine list_avg_bounds _ (by simpa using hne) ?_
    intro x hx
    rw [List.mem_map] at hx
    obtain ⟨m, _, rfl⟩ := hx
    exact messageDepthScore_bounds m.content

theorem calculateMetrics_bounds (cfg : EngagementTrackerConfig)
    (history : List TrackedMessage) :
    (0 ≤ (calculateMetrics cfg history).messageDiversity ∧
      (calculateMetrics cfg history).messageDiversity ≤ 1) ∧
    (0 ≤ (calculateMetrics cfg history).responseQuality ∧
      (calculateMetrics cfg history).responseQuality ≤ 1) ∧
    (0 ≤ (calculateMetrics cfg history).topicFlowSmoothness ∧
      (calculateMetrics cfg history).topicFlowSmoothness ≤ 1) ∧
    (0 ≤ (calculateMetrics cfg history).conversationDepth ∧
      (calculateMetrics cfg history).conversationDepth ≤ 1) ∧
    (0 ≤ (calculateMetrics cfg history).overallEngagement ∧
      (calculateMetrics cfg history).overallEngagement ≤ 1) := by
  by_cases h : history.length < 2
  · simp [calculateMetrics, h]
    norm_num
  · have hd := calculateMessageDiversity_bounds cfg history
    have hq := calculateResponseQuality_bounds cfg history
    have hf := calculateTopicFlowSmoothness_bounds cfg history
    have hc := calculateConversationDepth_bounds cfg history
    simp only [calculateMetrics, h, if_false]
    refine ⟨hd, hq, hf, hc, ?_, ?_⟩
    · have := hd.1; have := hq.1; have := hf.1; have := hc.1
      linarith
    · have := hd.2; have := hq.2; have := hf.2; have := hc.2
      linarith

/-- C6: every topic relevance score and the confidence produced by
`detectTopics`, and every engagement sub-score and the overall engagement
produced by `calculateMetrics`, lie in the closed interval [0, 1]. -/
theorem claim_C6_scoresInUnitInterval (topics : List Topic) (message : String)
    (t : Topic) (r : ℚ)
    (ht : t ∈ (detectTopics topics message).detectedTopics)
    (hr : t.relevanceScore = some r)
    (cfg : EngagementTrackerConfig) (history : List TrackedMessage) :
    (0 ≤ r ∧ r ≤ 1) ∧
    (0 ≤ (detectTopics topics message).topicConfidence ∧
      (detectTopics topics message).topicConfidence ≤ 1) ∧
    (0 ≤ (calculateMetrics cfg history).messageDiversity ∧
      (calculateMetrics cfg history).messageDiversity ≤ 1) ∧
    (0 ≤ (calculateMetrics cfg history).responseQuality ∧
      (calculateMetrics cfg history).responseQuality ≤ 1) ∧
    (0 ≤ (calculateMetrics cfg history).topicFlowSmoothness ∧
      (calculateMetrics cfg history).topicFlowSmoothness ≤ 1) ∧
    (0 ≤ (calculateMetrics cfg history).conversationDepth ∧
      (calculateMetrics cfg history).conversationDepth ≤ 1) ∧
    (0 ≤ (calculateMetrics cfg history).overallEngagement ∧
      (calculateMetrics cfg history).overallEngagement ≤ 1) := by
  obtain ⟨hm, hrest⟩ := calculateMetrics_bounds cfg history
  refine ⟨?_, detectTopics_confidence_bounds topics message, hm, hrest⟩
  obtain ⟨t0, _, _, heq⟩ := (mem_detectTopics topics message t).1 ht
  have hb := relevanceFormula_bounds (topicMatchCount t0 message)
    (messageWords message).length
  rw [heq] at hr
  have : r = relevanceFormula (topicMatchCount t0 message)
      (messageWords message).length := by
    simpa [detectedEntry] using hr.symm
  rw [this]
  exact hb

/-- Witness for C6: the single detected topic of "software" carries a
relevance score inside [0, 1]. -/
theorem claim_C6_scoresInUnitInterval_witness :
    0 ≤ relevanceFormula (topicMatchCount technologyTopic "software")
        (messageWords "software").length ∧
    relevanceFormula (topicMatchCount technologyTopic "software")
        (messageWords "software").length ≤ 1 := by
  have hmem : detectedEntry technologyTopic "software" ∈
      (detectTopics topicDefinitions "software").detectedTopics := by
    have hdet : (detectTopics topicDefinitions "software").detectedTopics =
        [ detectedEntry technologyTopic "software" ] := by rfl
    rw [hdet]
    exact List.mem_singleton_self _
  exact (claim_C6_scoresInUnitInterval topicDefinitions "software"
    (detectedEntry technologyTopic "software")
    (relevanceFormula (topicMatchCount technologyTopic "software")
      (messageWords "software").length)
    hmem rfl defaultEngagementConfig []).1

end A2A

